import Mathlib

set_option maxRecDepth 16000

/-!
Verification of the deterministic core of `src/extractor.py`: the canonical
schema, the shape-enforcing `ensure_all_fields`, the field normalizer
`postprocess_all` / `normalize_date`, the raw-output JSON recovery policy of
`extract_invoice`, and the text/vision sniffing heuristic.  Python values
flowing through the pipeline are shallowly embedded as `PyVal`; Python dicts
are ordered association lists without duplicate keys, exactly as produced by
`json.loads` and by the dict comprehensions of the source.
-/

namespace PrescriptionExtractor

/-- A Python value as handled by `extractor.py`: anything `json.loads` can
return, which is what flows into `ensure_all_fields` and `postprocess_all`.
Python `bool` is a separate constructor but counts as a number for
`isinstance(v, (int, float))` since `bool` is a subclass of `int` in Python.
Python floats are modeled as exact rationals. -/
inductive PyVal where
  | null : PyVal
  | bool : Bool → PyVal
  | int : Int → PyVal
  | float : ℚ → PyVal
  | str : String → PyVal
  | list : List PyVal → PyVal
  | dict : List (String × PyVal) → PyVal

/-- Python `dict.get(k, dflt)` on an ordered association list: the first
binding wins (dicts built by the source never hold duplicate keys). -/
def pyGet {α : Type} : List (String × α) → String → α → α
  | [], _, dflt => dflt
  | (k', v) :: rest, k, dflt => if k' = k then v else pyGet rest k dflt

/-- The canonical schema literal of src/extractor.py lines 18-64: a dict from
section name to a dict from field name to the empty-string default. -/
def CANONICAL_SCHEMA : List (String × PyVal) :=
  [("order_metadata", .dict
    [("order_id", .str ""), ("order_date", .str ""), ("foreign_order_id", .str ""),
     ("document_type", .str ""), ("priority", .str ""), ("status", .str ""),
     ("activity", .str ""), ("due_on", .str ""), ("manager", .str ""),
     ("location", .str ""), ("practice_id", .str ""), ("source_system", .str ""),
     ("creation_user", .str ""), ("last_modified_user", .str "")]),
   ("patient_information", .dict
    [("patient_id", .str ""), ("patient_first_name", .str ""), ("patient_last_name", .str ""),
     ("patient_dob", .str ""), ("patient_age", .str ""), ("patient_gender", .str ""),
     ("patient_pregnancy", .str ""), ("patient_species", .str ""), ("patient_ethnicity", .str ""),
     ("patient_weight_kg", .str ""), ("patient_height_cm", .str ""), ("patient_phone", .str ""),
     ("patient_email", .str ""), ("patient_address_line1", .str ""),
     ("patient_address_line2", .str ""), ("patient_city", .str ""),
     ("patient_state", .str ""), ("patient_zip", .str ""), ("patient_country", .str ""),
     ("patient_insurance_provider", .str ""), ("patient_insurance_id", .str ""),
     ("patient_group_number", .str "")]),
   ("prescriber_information", .dict
    [("prescriber_id", .str ""), ("prescriber_first_name", .str ""),
     ("prescriber_last_name", .str ""), ("prescriber_npi", .str ""),
     ("prescriber_phone", .str ""), ("prescriber_fax", .str ""),
     ("prescriber_email", .str ""), ("prescriber_clinic_name", .str ""),
     ("prescriber_address_line1", .str ""), ("prescriber_address_line2", .str ""),
     ("prescriber_city", .str ""), ("prescriber_state", .str ""),
     ("prescriber_zip", .str ""), ("prescriber_license", .str ""),
     ("prescriber_license_expiration_date", .str ""), ("prescriber_dea", .str ""),
     ("prescriber_dea_expiration_date", .str ""), ("prescriber_controlled_license", .str ""),
     ("prescriber_controlled_license_expiration", .str ""), ("prescriber_discipline", .str "")]),
   ("payment", .dict
    [("payor", .str ""), ("payor_lastname", .str ""), ("payor_firstname", .str ""),
     ("payor_address", .str ""), ("payor_address_line1", .str ""),
     ("payor_address_line2", .str ""), ("payor_city", .str ""),
     ("payor_state", .str ""), ("payor_zip", .str "")]),
   ("shipping_delivery", .dict
    [("shipping_method", .str ""), ("ship_date", .str ""), ("delivery_date", .str ""),
     ("tracking_number", .str ""), ("courier", .str ""), ("shipping_address_line1", .str ""),
     ("shipping_address_line2", .str ""), ("shipping_city", .str ""),
     ("shipping_state", .str ""), ("shipping_zip", .str ""),
     ("shipping_contact_name", .str ""), ("shipping_contact_phone", .str "")]),
   ("medication_prescription_data", .dict
    [("rx_number", .str ""), ("fill_date", .str ""), ("drug_name", .str ""),
     ("strength", .str ""), ("form", .str ""), ("ndc_code", .str ""), ("sig", .str ""),
     ("days_supply", .str ""), ("quantity_dispensed", .str ""), ("refills_remaining", .str ""),
     ("lot_number", .str ""), ("expiration_date", .str ""), ("unit_price", .str ""),
     ("ingredient_cost", .str ""), ("dispensing_fee", .str ""), ("tax_amount", .str ""),
     ("line_total", .str ""), ("pharmacy_notes", .str "")]),
   ("clinical", .dict
    [("patient_allergies", .str ""), ("patient_diseases", .str ""),
     ("patient_medication_history", .str ""), ("patient_encounters", .str "")])]

/-- Python `content.keys()` for a schema section (every canonical section is a
dict; a non-dict yields no keys). -/
def secFields : PyVal → List String
  | .dict kvs => kvs.map Prod.fst
  | _ => []

/-- Lines 81-83 of src/extractor.py:
`sec_val = result.get(section, {}) if isinstance(result, dict) else {}` followed
by `if not isinstance(sec_val, dict): sec_val = {}`. -/
def sectionItems (result : PyVal) (sec : String) : List (String × PyVal) :=
  match result with
  | .dict kvs =>
    match pyGet kvs sec (.dict []) with
    | .dict secKvs => secKvs
    | _ => []
  | _ => []

/-- Line 87 of src/extractor.py: `if v is None: v = ""`. -/
def noneToEmpty : PyVal → PyVal
  | .null => .str ""
  | v => v

/-- Embeds `ensure_all_fields` (src/extractor.py lines 77-90): for every
schema section build a fresh dict holding exactly the schema's field keys,
taking the input's value when present and non-None and `""` otherwise. -/
def ensure_all_fields (result : PyVal) (schema : List (String × PyVal)) : PyVal :=
  .dict (schema.map fun sc =>
    (sc.1, .dict ((secFields sc.2).map fun k =>
      (k, noneToEmpty (pyGet (sectionItems result sc.1) k (.str ""))))))

/-- ASCII whitespace: exactly the characters stripped by Python `str.strip()`
and matched by the regex class `\s` (the model restricts both to ASCII). -/
def isPyWs (c : Char) : Bool :=
  c = ' ' || c = '\t' || c = '\n' || c = '\r' || c = '\x0b' || c = '\x0c'

/-- Python `str.strip()` on a character list. -/
def pyStripL (cs : List Char) : List Char :=
  (((cs.dropWhile isPyWs).reverse.dropWhile isPyWs)).reverse

/-- Python `str.strip()`. -/
def pyStrip (s : String) : String := ⟨pyStripL s.data⟩

/-- Alternatives of the `_DATE_FIELDS` regex (src/extractor.py line 92). -/
def dateAlts : List (List Char) :=
  ["date".data, "dob".data, "expiration".data, "due_on".data,
   "ship_date".data, "delivery_date".data]

/-- Alternatives of the `_NUMERIC_HINT` regex (src/extractor.py line 93). -/
def numericAlts : List (List Char) :=
  ["amount".data, "price".data, "total".data, "fee".data, "paid".data,
   "tax".data, "qty".data, "quantity".data, "zip".data, "npi".data,
   "dea".data, "phone".data, "rx".data, "order_id".data, "invoice".data,
   "weight".data, "height".data, "days_supply".data, "unit_price".data,
   "line_total".data]

/-- `re.search` of an end-anchored case-insensitive alternation
`(a1|...|an)$` compiled without `re.MULTILINE`: it matches iff some
alternative is a suffix of the lowercased string, or a suffix of the string
with a single trailing newline removed (Python `$` also matches just before
a terminal newline). -/
def searchEndAnchored (alts : List (List Char)) (k : String) : Bool :=
  let t := k.data.map Char.toLower
  alts.any (fun a => decide (a <:+ t)) ||
    (decide (['\n'] <:+ t) && alts.any (fun a => decide (a <:+ t.dropLast)))

/-- Embeds `_DATE_FIELDS.search(k)` (line 92). -/
def DATE_FIELDS (k : String) : Bool := searchEndAnchored dateAlts k

/-- Embeds `_NUMERIC_HINT.search(k)` (line 93). -/
def NUMERIC_HINT (k : String) : Bool := searchEndAnchored numericAlts k

/-- Python `s.replace("$", "")` for the single character `$`: removing every
occurrence is filtering it out. -/
def removeChar (x : Char) (cs : List Char) : List Char :=
  cs.filter (fun c => !(c = x : Bool))

/-- Line 114 of src/extractor.py without the trailing strip:
`s.replace("$", "").replace(",", "")`. -/
def stripDollarComma (cs : List Char) : List Char :=
  removeChar ',' (removeChar '$' cs)

/-! ## Date parsing: `datetime.strptime` for the formats used at line 98

CPython's `_strptime` compiles a format string into a regex: a `%`-directive
becomes a character-class pattern, a run of whitespace becomes `\s+`, any
other character is a literal, and the whole regex must match the full input.
The directive patterns used by the source's seven formats are
`%Y ↦ \d\d\d\d`, `%m ↦ (1[0-2]|0[1-9]|[1-9])`, `%d ↦ (3[01]|[12]\d|0[1-9]|[1-9])`
and `%b ↦ (jan|feb|...|dec)` case-insensitively; the matched fields are then
validated by the `datetime` constructor.  In all seven formats every numeric
directive is followed by a non-digit literal or the end of the input, so the
regex alternation is equivalent to: take the maximal leading digit run, which
must have length 1 or 2 (exactly 4 for `%Y`) and value in range. -/

/-- Token of a compiled strptime format string. -/
inductive FTok where
  | Y : FTok
  | mo : FTok
  | dy : FTok
  | ab : FTok
  | ws : FTok
  | lit : Char → FTok
  | bad : FTok
deriving DecidableEq

/-- The `%`-directives appearing in the source's formats; any other directive
is `.bad` and never matches (none occur in the source). -/
def dirTok : Char → FTok
  | 'Y' => .Y
  | 'm' => .mo
  | 'd' => .dy
  | 'b' => .ab
  | _ => .bad

/-- One token per format character. -/
def rawToks : List Char → List FTok
  | [] => []
  | '%' :: c :: fs => dirTok c :: rawToks fs
  | ['%'] => [.bad]
  | c :: fs => (if isPyWs c then .ws else .lit c) :: rawToks fs

mutual
/-- Collapse runs of whitespace tokens: `_strptime` rewrites each whitespace
run of the format into a single `\s+`. -/
def collapseWs : List FTok → List FTok
  | [] => []
  | .ws :: ts => .ws :: collapseSkip ts
  | t :: ts => t :: collapseWs ts

/-- After a whitespace token, drop the rest of the whitespace run. -/
def collapseSkip : List FTok → List FTok
  | [] => []
  | .ws :: ts => collapseSkip ts
  | t :: ts => t :: collapseWs ts
end

/-- Compile a strptime format string to tokens. -/
def fmtToks (cs : List Char) : List FTok := collapseWs (rawToks cs)

/-- Numeric value of a digit run (most significant first). -/
def numValL (cs : List Char) : Nat :=
  cs.foldl (fun a c => 10 * a + (c.toNat - 48)) 0

/-- Match `%m`-style directives: a 1-2 digit run with value in `1..hi`.  In
the source's formats the directive is always followed by a non-digit, so the
regex alternation consumes the whole leading digit run. -/
def parse12 (hi : Nat) (cs : List Char) : Option (Nat × List Char) :=
  let run := cs.takeWhile Char.isDigit
  let rest := cs.dropWhile Char.isDigit
  if run.length = 1 ∨ run.length = 2 then
    let v := numValL run
    if 1 ≤ v ∧ v ≤ hi then some (v, rest) else none
  else none

/-- Match `%Y`: exactly four digits. -/
def parse4 (cs : List Char) : Option (Nat × List Char) :=
  match cs with
  | a :: b :: c :: d :: rest =>
    if a.isDigit && b.isDigit && c.isDigit && d.isDigit then
      some (numValL [a, b, c, d], rest)
    else none
  | _ => none

/-- Month number of a lowercased three-letter abbreviation (C locale). -/
def monthNum (cs : List Char) : Option Nat :=
  if cs = ['j', 'a', 'n'] then some 1
  else if cs = ['f', 'e', 'b'] then some 2
  else if cs = ['m', 'a', 'r'] then some 3
  else if cs = ['a', 'p', 'r'] then some 4
  else if cs = ['m', 'a', 'y'] then some 5
  else if cs = ['j', 'u', 'n'] then some 6
  else if cs = ['j', 'u', 'l'] then some 7
  else if cs = ['a', 'u', 'g'] then some 8
  else if cs = ['s', 'e', 'p'] then some 9
  else if cs = ['o', 'c', 't'] then some 10
  else if cs = ['n', 'o', 'v'] then some 11
  else if cs = ['d', 'e', 'c'] then some 12
  else none

/-- Match `%b`: three letters, case-insensitively an English month
abbreviation. -/
def parseAbbrev (cs : List Char) : Option (Nat × List Char) :=
  match cs with
  | a :: b :: c :: rest =>
    match monthNum [a.toLower, b.toLower, c.toLower] with
    | some m => some (m, rest)
    | none => none
  | _ => none

/-- Fields collected while matching a format. -/
structure DParts where
  py : Option Nat
  pm : Option Nat
  pd : Option Nat
deriving DecidableEq

/-- Run a compiled format against the input; the whole input must be
consumed, as `strptime` raises unless the regex match spans the string. -/
def runToks : List FTok → List Char → DParts → Option DParts
  | [], s, acc => if s.isEmpty then some acc else none
  | .Y :: ts, s, acc =>
    match parse4 s with
    | some (v, rest) => runToks ts rest { acc with py := some v }
    | none => none
  | .mo :: ts, s, acc =>
    match parse12 12 s with
    | some (v, rest) => runToks ts rest { acc with pm := some v }
    | none => none
  | .dy :: ts, s, acc =>
    match parse12 31 s with
    | some (v, rest) => runToks ts rest { acc with pd := some v }
    | none => none
  | .ab :: ts, s, acc =>
    match parseAbbrev s with
    | some (v, rest) => runToks ts rest { acc with pm := some v }
    | none => none
  | .ws :: ts, s, acc =>
    if (s.takeWhile isPyWs).isEmpty then none
    else runToks ts (s.dropWhile isPyWs) acc
  | .lit c :: ts, s, acc =>
    match s with
    | c' :: rest => if c' = c then runToks ts rest acc else none
    | [] => none
  | .bad :: _, _, _ => none

/-- Gregorian month lengths, as validated by the `datetime` constructor. -/
def daysInMonth (y m : Nat) : Nat :=
  if m = 2 then
    (if y % 4 = 0 ∧ (y % 100 ≠ 0 ∨ y % 400 = 0) then 29 else 28)
  else if m = 4 ∨ m = 6 ∨ m = 9 ∨ m = 11 then 30 else 31

/-- A calendar date as carried by a Python `datetime`. -/
structure Date where
  year : Nat
  month : Nat
  day : Nat
deriving DecidableEq

/-- Bounds enforced by the `datetime` constructor (`MINYEAR = 1`,
`MAXYEAR = 9999`). -/
def ValidDate (dt : Date) : Prop :=
  1 ≤ dt.year ∧ dt.year ≤ 9999 ∧ 1 ≤ dt.month ∧ dt.month ≤ 12 ∧
    1 ≤ dt.day ∧ dt.day ≤ daysInMonth dt.year dt.month

instance (dt : Date) : Decidable (ValidDate dt) := by
  unfold ValidDate; infer_instance

/-- Embeds `datetime.strptime(s, fmt)` restricted to a date: match the
compiled format, default missing fields like `_strptime` does
(1900-01-01), then validate through the `datetime` constructor. -/
def strptimeDate (fmt : String) (s : String) : Option Date :=
  match runToks (fmtToks fmt.data) s.data ⟨none, none, none⟩ with
  | none => none
  | some parts =>
    let dt : Date := ⟨parts.py.getD 1900, parts.pm.getD 1, parts.pd.getD 1⟩
    if ValidDate dt then some dt else none

/-- The format list of src/extractor.py line 98. -/
def DATE_FMTS : List String :=
  ["%Y-%m-%d", "%m/%d/%Y", "%d/%m/%Y", "%m-%d-%Y", "%d-%m-%Y",
   "%b %d, %Y", "%d %b %Y"]

/-- The `for f in fmts: try ... except: pass` loop of lines 99-101: first
format that parses wins. -/
def tryDateFmts : List String → String → Option Date
  | [], _ => none
  | f :: fs, s =>
    match strptimeDate f s with
    | some dt => some dt
    | none => tryDateFmts fs s

/-- Two-digit zero-padded rendering (`strftime` `%m`, `%d`). -/
def twoDigits (n : Nat) : List Char :=
  [Nat.digitChar (n / 10 % 10), Nat.digitChar (n % 10)]

/-- Four-digit zero-padded rendering (`strftime` `%Y`). -/
def fourDigits (n : Nat) : List Char :=
  [Nat.digitChar (n / 1000 % 10), Nat.digitChar (n / 100 % 10),
   Nat.digitChar (n / 10 % 10), Nat.digitChar (n % 10)]

/-- Embeds `datetime.strftime("%Y-%m-%d")` with a zero-padded year (platform
`strftime` may leave years below 1000 unpadded; every date reachable from the
claims has a four-digit year). -/
def isoChars (dt : Date) : List Char :=
  fourDigits dt.year ++ '-' :: (twoDigits dt.month ++ '-' :: twoDigits dt.day)

/-- Embeds `strftime("%Y-%m-%d")` as a string. -/
def strftimeIso (dt : Date) : String := ⟨isoChars dt⟩

/-- Embeds `normalize_date` (src/extractor.py lines 95-102) on a character
list: strip, return `""` for empty, otherwise emit the first parsing format's
date as ISO and fall back to the stripped input. -/
def normDateL (cs : List Char) : List Char :=
  let t := pyStripL cs
  if t.isEmpty then []
  else
    match tryDateFmts DATE_FMTS ⟨t⟩ with
    | some dt => isoChars dt
    | none => t

/-- Embeds `normalize_date` (src/extractor.py lines 95-102). -/
def normalize_date (s : String) : String := ⟨normDateL s.data⟩

/-! ## Field post-processing (`postprocess_all`, lines 104-118) -/

/-- Python `isinstance(v, (int, float))`: true for ints, floats and bools
(`bool` subclasses `int`). -/
def pyIsNum : PyVal → Bool
  | .int _ => true
  | .float _ => true
  | .bool _ => true
  | _ => false

/-- Backslash escapes inside a repr'd string literal. -/
def reprEscape (cs : List Char) : List Char :=
  cs.flatMap fun c =>
    if c = '\\' then ['\\', '\\']
    else if c = '\'' then ['\\', '\'']
    else if c = '\n' then ['\\', 'n']
    else if c = '\r' then ['\\', 'r']
    else if c = '\t' then ['\\', 't']
    else [c]

mutual
/-- Python `repr` of a value, approximately: strings are single-quoted with
backslash escapes, floats are rendered from their exact rational model.  It
is only reached when `str()` is applied to a list or dict field value, and no
claim inspects the exact rendering. -/
def pyRepr : PyVal → List Char
  | .null => "None".data
  | .bool true => "True".data
  | .bool false => "False".data
  | .int n => (toString n).data
  | .float q => (toString q.num).data ++ '/' :: (toString q.den).data
  | .str s => '\'' :: reprEscape s.data ++ ['\'']
  | .list xs => '[' :: pyReprElems xs ++ [']']
  | .dict kvs => '\x7b' :: pyReprPairs kvs ++ ['\x7d']

/-- Comma-separated reprs of list elements. -/
def pyReprElems : List PyVal → List Char
  | [] => []
  | [x] => pyRepr x
  | x :: xs => pyRepr x ++ ',' :: ' ' :: pyReprElems xs

/-- Comma-separated `key: value` reprs of dict entries. -/
def pyReprPairs : List (String × PyVal) → List Char
  | [] => []
  | [(k, v)] => pyRepr (.str k) ++ ':' :: ' ' :: pyRepr v
  | (k, v) :: kvs => pyRepr (.str k) ++ ':' :: ' ' :: pyRepr v ++ ',' :: ' ' :: pyReprPairs kvs
end

/-- Python `str(v)`: the identity on strings, `repr` otherwise. -/
def pyStr : PyVal → List Char
  | .str s => s.data
  | v => pyRepr v

/-- The string pipeline of lines 112-116 applied to field `k`: trim, strip
`$` and `,` then re-trim when the name has a numeric hint, reparse dates when
it has a date hint. -/
def ppChain (k : String) (cs : List Char) : List Char :=
  let a := pyStripL cs
  let b := if NUMERIC_HINT k then pyStripL (stripDollarComma a) else a
  if DATE_FIELDS k then normDateL b else b

/-- The loop body of `postprocess_all` (lines 106-117) for one field:
`None` becomes `""`, ints/floats (and bools) pass through, everything else is
stringified and sent through `ppChain`. -/
def postprocess_field (k : String) (v : PyVal) : PyVal :=
  match v with
  | .null => .str ""
  | v =>
    if pyIsNum v then v
    else .str ⟨ppChain k (pyStr v)⟩

/-- Embeds `postprocess_all` (lines 104-118).  The source mutates `d` in
place and returns it; it is only ever called on the dict-of-dicts built by
`ensure_all_fields` (a non-dict node would raise in the source; the model
passes such nodes through). -/
def postprocess_all (d : PyVal) : PyVal :=
  match d with
  | .dict sections =>
    .dict (sections.map fun sc =>
      (sc.1,
        match sc.2 with
        | .dict kvs => .dict (kvs.map fun kv => (kv.1, postprocess_field kv.1 kv.2))
        | c => c))
  | d => d

/-- Lines 221-222 of `extract_invoice`: shape enforcement followed by field
normalization — the Response Normalizer. -/
def normalizeResponse (v : PyVal) : PyVal :=
  postprocess_all (ensure_all_fields v CANONICAL_SCHEMA)

/-! ## `json.loads` (used at lines 211 and 216)

A strict JSON parser over `PyVal`: objects, arrays, strings with escapes,
numbers (`int` when the literal has no fraction or exponent, `float`
otherwise), `true`/`false`/`null`.  Python's non-standard `NaN`/`Infinity`
extension is floating-point and outside the model.  The parser is fuelled by
the input length; every recursive call consumes at least one character, so
the fuel never runs out on any input. -/

/-- JSON whitespace (`json.decoder.WHITESPACE`). -/
def jsonWs (c : Char) : Bool := c = ' ' || c = '\t' || c = '\n' || c = '\r'

/-- Skip JSON whitespace. -/
def skipWs (cs : List Char) : List Char := cs.dropWhile jsonWs

/-- Hexadecimal digit value. -/
def hexVal (c : Char) : Option Nat :=
  if c.isDigit then some (c.toNat - 48)
  else if 'a' ≤ c ∧ c ≤ 'f' then some (c.toNat - 87)
  else if 'A' ≤ c ∧ c ≤ 'F' then some (c.toNat - 55)
  else none

/-- Four hex digits of a `\uXXXX` escape. -/
def parseHex4 : List Char → Option (Nat × List Char)
  | a :: b :: c :: d :: rest =>
    match hexVal a, hexVal b, hexVal c, hexVal d with
    | some x, some y, some z, some w => some (((x * 16 + y) * 16 + z) * 16 + w, rest)
    | _, _, _, _ => none
  | _ => none

/-- Single-character JSON escapes. -/
def escChar (c : Char) : Option Char :=
  if c = '"' then some '"'
  else if c = '\\' then some '\\'
  else if c = '/' then some '/'
  else if c = 'b' then some '\x08'
  else if c = 'f' then some '\x0c'
  else if c = 'n' then some '\n'
  else if c = 'r' then some '\r'
  else if c = 't' then some '\t'
  else none

/-- Body of a JSON string after the opening quote.  Surrogate pairs combine;
a lone surrogate (kept verbatim by Python) maps through `Char.ofNat`'s
fallback.  Raw control characters are rejected (`strict=True`). -/
def parseStrBody : Nat → List Char → Option (List Char × List Char)
  | 0, _ => none
  | _, [] => none
  | fuel + 1, c :: rest =>
    if c = '"' then some ([], rest)
    else if c = '\\' then
      match rest with
      | [] => none
      | 'u' :: r2 =>
        match parseHex4 r2 with
        | none => none
        | some (n, r3) =>
          if 0xD800 ≤ n ∧ n < 0xDC00 then
            match r3 with
            | '\\' :: 'u' :: r4 =>
              match parseHex4 r4 with
              | some (n2, r5) =>
                if 0xDC00 ≤ n2 ∧ n2 < 0xE000 then
                  match parseStrBody fuel r5 with
                  | some (cs, rest') =>
                    some (Char.ofNat (0x10000 + (n - 0xD800) * 0x400 + (n2 - 0xDC00)) :: cs, rest')
                  | none => none
                else
                  match parseStrBody fuel r3 with
                  | some (cs, rest') => some (Char.ofNat n :: cs, rest')
                  | none => none
              | none =>
                match parseStrBody fuel r3 with
                | some (cs, rest') => some (Char.ofNat n :: cs, rest')
                | none => none
            | _ =>
              match parseStrBody fuel r3 with
              | some (cs, rest') => some (Char.ofNat n :: cs, rest')
              | none => none
          else
            match parseStrBody fuel r3 with
            | some (cs, rest') => some (Char.ofNat n :: cs, rest')
            | none => none
      | e :: r2 =>
        match escChar e with
        | some ec =>
          match parseStrBody fuel r2 with
          | some (cs, rest') => some (ec :: cs, rest')
          | none => none
        | none => none
    else if c.toNat < 0x20 then none
    else
      match parseStrBody fuel rest with
      | some (cs, rest') => some (c :: cs, rest')
      | none => none

/-- Leading digit run and remainder. -/
def leadDigits (cs : List Char) : List Char × List Char :=
  (cs.takeWhile Char.isDigit, cs.dropWhile Char.isDigit)

/-- Exponent tail after `e`/`E`. -/
def parseExpTail (cs : List Char) : Option (Int × List Char) :=
  let (sgn, cs1) :=
    match cs with
    | '+' :: r => ((1 : Int), r)
    | '-' :: r => ((-1 : Int), r)
    | _ => ((1 : Int), cs)
  let (run, rest) := leadDigits cs1
  if run.isEmpty then none else some (sgn * numValL run, rest)

/-- JSON number per `-?(0|[1-9]\d*)(\.\d+)?([eE][+-]?\d+)?`: `int` without
fraction/exponent, else `float` with the exact rational value. -/
def parseNumber (cs : List Char) : Option (PyVal × List Char) :=
  let (neg, cs1) :=
    match cs with
    | '-' :: r => (true, r)
    | _ => (false, cs)
  let (intRun, cs2) := leadDigits cs1
  if intRun.isEmpty then none
  else if 1 < intRun.length ∧ intRun.head? = some '0' then none
  else
    let ip : Nat := numValL intRun
    let fracStep : Option (Nat × Nat × List Char) :=
      match cs2 with
      | '.' :: r =>
        let (run, rest) := leadDigits r
        if run.isEmpty then none else some (numValL run, run.length, rest)
      | _ => some (0, 0, cs2)
    match fracStep with
    | none => none
    | some (fv, fl, cs3) =>
      let expStep : Option (Int × Bool × List Char) :=
        match cs3 with
        | 'e' :: r =>
          match parseExpTail r with
          | some (e, rest) => some (e, true, rest)
          | none => none
        | 'E' :: r =>
          match parseExpTail r with
          | some (e, rest) => some (e, true, rest)
          | none => none
        | _ => some (0, false, cs3)
      match expStep with
      | none => none
      | some (ev, hasExp, cs4) =>
        if fl = 0 ∧ ¬hasExp then
          some (.int (if neg then -(ip : Int) else (ip : Int)), cs4)
        else
          let mant : ℚ := (ip : ℚ) + (fv : ℚ) / ((10 : ℚ) ^ fl)
          let scaled : ℚ :=
            if 0 ≤ ev then mant * (10 : ℚ) ^ ev.toNat else mant / (10 : ℚ) ^ (-ev).toNat
          some (.float (if neg then -scaled else scaled), cs4)

/-- Python `dict` insertion: an existing key keeps its position and takes the
new value, a new key is appended (`json` builds objects with `dict(pairs)`,
so a duplicate key keeps its first position with the last value). -/
def dictInsert (kvs : List (String × PyVal)) (k : String) (v : PyVal) :
    List (String × PyVal) :=
  match kvs with
  | [] => [(k, v)]
  | (k', v') :: rest =>
    if k' = k then (k', v) :: rest else (k', v') :: dictInsert rest k v

/-- A pending container during parsing. -/
inductive PFrame where
  | arr : List PyVal → PFrame
  | obj : List (String × PyVal) → String → PFrame

/-- One-pass JSON value parser: `none` task parses a value at the head of the
input, `some v` task closes pending containers with the completed value `v`.
Each recursive call consumes at least one input character, so fuel
`length + 1` always suffices. -/
def parseStep : Nat → List PFrame → Option PyVal → List Char → Option (PyVal × List Char)
  | 0, _, _, _ => none
  | fuel + 1, stack, some v, cs =>
    match stack with
    | [] => some (v, cs)
    | .arr acc :: st =>
      match skipWs cs with
      | ',' :: r => parseStep fuel (.arr (acc ++ [v]) :: st) none (skipWs r)
      | ']' :: r => parseStep fuel st (some (.list (acc ++ [v]))) r
      | _ => none
    | .obj acc key :: st =>
      match skipWs cs with
      | ',' :: r =>
        match skipWs r with
        | '"' :: r2 =>
          match parseStrBody (r2.length + 1) r2 with
          | some (keyCs, r3) =>
            match skipWs r3 with
            | ':' :: r4 =>
              parseStep fuel (.obj (dictInsert acc key v) ⟨keyCs⟩ :: st) none (skipWs r4)
            | _ => none
          | none => none
        | _ => none
      | '\x7d' :: r => parseStep fuel st (some (.dict (dictInsert acc key v))) r
      | _ => none
  | fuel + 1, stack, none, cs =>
    match cs with
    | [] => none
    | c :: rest =>
      if c = '"' then
        match parseStrBody (rest.length + 1) rest with
        | some (body, r) => parseStep fuel stack (some (.str ⟨body⟩)) r
        | none => none
      else if c = '\x7b' then
        match skipWs rest with
        | '\x7d' :: r => parseStep fuel stack (some (.dict [])) r
        | '"' :: r2 =>
          match parseStrBody (r2.length + 1) r2 with
          | some (keyCs, r3) =>
            match skipWs r3 with
            | ':' :: r4 => parseStep fuel (.obj [] ⟨keyCs⟩ :: stack) none (skipWs r4)
            | _ => none
          | none => none
        | _ => none
      else if c = '[' then
        match skipWs rest with
        | ']' :: r => parseStep fuel stack (some (.list [])) r
        | r => parseStep fuel (.arr [] :: stack) none r
      else if c = 't' then
        if rest.take 3 = ['r', 'u', 'e'] then
          parseStep fuel stack (some (.bool true)) (rest.drop 3)
        else none
      else if c = 'f' then
        if rest.take 4 = ['a', 'l', 's', 'e'] then
          parseStep fuel stack (some (.bool false)) (rest.drop 4)
        else none
      else if c = 'n' then
        if rest.take 3 = ['u', 'l', 'l'] then
          parseStep fuel stack (some PyVal.null) (rest.drop 3)
        else none
      else
        match parseNumber cs with
        | some (v, r) => parseStep fuel stack (some v) r
        | none => none

/-- Embeds `json.loads`: parse one value surrounded by optional whitespace;
anything left over is an error. -/
def json_loads (s : String) : Option PyVal :=
  let cs := skipWs s.data
  match parseStep (cs.length + 1) [] none cs with
  | some (v, rest) => if (skipWs rest).isEmpty then some v else none
  | none => none

/-! ## Raw-output recovery (`extract_invoice`, lines 209-218) -/

/-- Embeds `re.sub(r"^```(?:json)?\s*|\s*```$", "", raw.strip(), flags=re.DOTALL)`.
Without `re.MULTILINE`, `^` only matches at the start; the first alternative
removes one leading fence (greedily taking an optional `json` tag and
following whitespace) and the second removes the trailing run of whitespace
followed by a final triple backtick.  The input was stripped, so `$` cannot
fire before a trailing newline. -/
def stripFences (raw : String) : String :=
  let cs := pyStripL raw.data
  let cs :=
    match cs with
    | '`' :: '`' :: '`' :: rest =>
      let rest := if rest.take 4 = ['j', 's', 'o', 'n'] then rest.drop 4 else rest
      rest.dropWhile isPyWs
    | cs => cs
  let cs :=
    match cs.reverse with
    | '`' :: '`' :: '`' :: revRest => (revRest.dropWhile isPyWs).reverse
    | _ => cs
  ⟨cs⟩

/-- Lines 209-218: best-effort JSON parse of the raw model response, one
fence-stripped retry, else the empty mapping. -/
def recoverParse (raw : String) : PyVal :=
  match json_loads raw with
  | some v => v
  | none =>
    match json_loads (stripFences raw) with
    | some v => v
    | none => .dict []

/-- Lines 209-222: what `extract_invoice` computes from the raw response
string (parse recovery, then shape enforcement and post-processing). -/
def extractShape (raw : String) : PyVal := normalizeResponse (recoverParse raw)

/-- The all-empty-fields shaped result. -/
def allEmptyResult : PyVal :=
  .dict (CANONICAL_SCHEMA.map fun sc =>
    (sc.1, .dict ((secFields sc.2).map fun k => (k, .str ""))))

/-! ## Document sniffer (`extract_invoice`, lines 191-204) -/

/-- Text-or-vision decision. -/
inductive Mode where
  | text : Mode
  | vision : Mode
deriving DecidableEq

/-- Line 192: `avg_len = sum(len(p) for p in pages) / max(1, len(pages))`.
Python's float division of two integers is modeled as exact rational
division; the two agree on the `> 300` test for any realistic page sizes. -/
def avg_len (pages : List String) : ℚ :=
  (((pages.map String.length).sum : ℕ) : ℚ) / ((max 1 pages.length : ℕ) : ℚ)

/-- Line 193: `text_ok = avg_len > 300`. -/
def text_ok (pages : List String) : Bool := decide ((300 : ℚ) < avg_len pages)

/-- Lines 196-204: text messages when `text_ok`; otherwise vision when
enabled, else text fallback with whatever was extracted. -/
def chooseMode (pages : List String) (useVisionIfNeeded : Bool) : Mode :=
  if text_ok pages then .text
  else if useVisionIfNeeded then .vision
  else .text

/-! ## Observation functions used by the theorem statements -/

/-- The nesting shape of a value: its top-level keys paired with each
section's key list. -/
def shapeOf : PyVal → List (String × List String)
  | .dict kvs => kvs.map fun p => (p.1, secFields p.2)
  | _ => []

/-- The canonical schema's shape: its sections with their field lists. -/
def canonicalShape : List (String × List String) :=
  CANONICAL_SCHEMA.map fun sc => (sc.1, secFields sc.2)

/-- Observation: is the value a Python `str`? -/
def isStr : PyVal → Bool
  | .str _ => true
  | _ => false

/-- Look a field up through two dict levels (observation only). -/
def getField (v : PyVal) (sec k : String) : PyVal :=
  match v with
  | .dict kvs =>
    match pyGet kvs sec .null with
    | .dict fkvs => pyGet fkvs k .null
    | _ => .null
  | _ => .null

/-! ## List and strip lemmas -/

theorem dropWhile_dropWhile (p : Char → Bool) (l : List Char) :
    (l.dropWhile p).dropWhile p = l.dropWhile p := by
  induction l with
  | nil => rfl
  | cons a l ih =>
    by_cases h : p a
    · simpa [List.dropWhile_cons, h] using ih
    · simp [List.dropWhile_cons, h]

theorem dropWhile_eq_self_of (p : Char → Bool) (l : List Char)
    (h : ∀ c ∈ l, p c = false) : l.dropWhile p = l := by
  cases l with
  | nil => rfl
  | cons a l => simp [List.dropWhile_cons, h a (List.mem_cons_self a l)]

theorem pyStripL_eq_self (cs : List Char) (h : ∀ c ∈ cs, isPyWs c = false) :
    pyStripL cs = cs := by
  unfold pyStripL
  rw [dropWhile_eq_self_of _ _ h, dropWhile_eq_self_of _ _ (by simpa using h),
    List.reverse_reverse]

theorem pyStripL_sublist (cs : List Char) : List.Sublist (pyStripL cs) cs := by
  unfold pyStripL
  refine List.Sublist.trans ?_ (List.dropWhile_sublist (l := cs) isPyWs)
  have h := (List.dropWhile_sublist (l := (cs.dropWhile isPyWs).reverse) isPyWs).reverse
  simpa using h

theorem mem_of_mem_pyStripL {cs : List Char} {c : Char} (h : c ∈ pyStripL cs) :
    c ∈ cs := (pyStripL_sublist cs).mem h

theorem pyStripL_idem (cs : List Char) : pyStripL (pyStripL cs) = pyStripL cs := by
  have hTrev : (pyStripL cs).reverse = (cs.dropWhile isPyWs).reverse.dropWhile isPyWs := by
    simp [pyStripL]
  have h1 : (pyStripL cs).dropWhile isPyWs = pyStripL cs := by
    rcases heq : pyStripL cs with _ | ⟨a, t⟩
    · rfl
    · have hpre : List.IsPrefix (pyStripL cs) (cs.dropWhile isPyWs) := by
        rw [← List.reverse_suffix, hTrev]
        exact List.dropWhile_suffix _
      rcases hpre with ⟨u, hu⟩
      have hhead : cs.dropWhile isPyWs = a :: (t ++ u) := by
        rw [← hu, heq]; rfl
      have hdd := dropWhile_dropWhile isPyWs cs
      rw [hhead] at hdd
      have hpa : isPyWs a = false := by
        cases hha : isPyWs a
        · rfl
        · rw [List.dropWhile_cons, hha] at hdd
          simp only [if_true] at hdd
          have hle := (List.dropWhile_sublist (l := t ++ u) isPyWs).length_le
          rw [hdd] at hle
          simp only [List.length_cons] at hle
          omega
      simp [List.dropWhile_cons, hpa]
  have step1 : pyStripL (pyStripL cs)
      = (((pyStripL cs).dropWhile isPyWs).reverse.dropWhile isPyWs).reverse := rfl
  rw [step1, h1, hTrev, dropWhile_dropWhile, ← hTrev, List.reverse_reverse]

/-! ## Lookup lemmas -/

theorem pyGet_map_self {α : Type} (ks : List String) (f : String → α) (k : String) (d : α)
    (h : k ∈ ks) : pyGet (ks.map fun k' => (k', f k')) k d = f k := by
  induction ks with
  | nil => cases h
  | cons a ks ih =>
    simp only [List.map_cons, pyGet]
    by_cases hak : a = k
    · subst hak; simp
    · rw [if_neg hak]
      refine ih ?_
      rcases List.mem_cons.mp h with h' | h'
      · exact absurd h'.symm hak
      · exact h'

theorem pyGet_map_pair {β γ : Type} (l : List (String × β)) (f : String × β → γ)
    (sc : String × β) (d : γ) (hmem : sc ∈ l) (hnd : (l.map Prod.fst).Nodup) :
    pyGet (l.map fun p => (p.1, f p)) sc.1 d = f sc := by
  induction l with
  | nil => cases hmem
  | cons a l ih =>
    simp only [List.map_cons, List.nodup_cons] at hnd
    simp only [List.map_cons, pyGet]
    by_cases h : a.1 = sc.1
    · rw [if_pos h]
      rcases List.mem_cons.mp hmem with rfl | hmem'
      · rfl
      · exact absurd (h ▸ List.mem_map_of_mem Prod.fst hmem') hnd.1
    · rw [if_neg h]
      rcases List.mem_cons.mp hmem with rfl | hmem'
      · exact absurd rfl h
      · exact ih hmem' hnd.2

theorem schema_sections_nodup : (CANONICAL_SCHEMA.map Prod.fst).Nodup := by decide

/-! ## The two hint patterns never match the same field name -/

theorem alts_not_suffix :
    ∀ a ∈ dateAlts, ∀ b ∈ numericAlts, ¬ (a <:+ b) ∧ ¬ (b <:+ a) := by decide

theorem dateAlts_ne_nil : ∀ a ∈ dateAlts, a ≠ [] := by decide

theorem numericAlts_ne_nil : ∀ a ∈ numericAlts, a ≠ [] := by decide

theorem dateAlts_last : ∀ a ∈ dateAlts, a.getLast? ≠ some '\n' := by decide

theorem numericAlts_last : ∀ a ∈ numericAlts, a.getLast? ≠ some '\n' := by decide

theorem suffix_getLast? {a t : List Char} (h : a <:+ t) (ha : a ≠ []) :
    t.getLast? = a.getLast? := by
  rcases h with ⟨p, hp⟩
  rw [← hp]
  exact List.getLast?_append_of_ne_nil _ ha

theorem searchEnd_conflict (k : String)
    (hn : searchEndAnchored numericAlts k = true)
    (hd : searchEndAnchored dateAlts k = true) : False := by
  unfold searchEndAnchored at hn hd
  simp only [Bool.or_eq_true, Bool.and_eq_true, List.any_eq_true,
    decide_eq_true_eq] at hn hd
  rcases hn with ⟨b, hb, hbs⟩ | ⟨hnlN, b, hb, hbs⟩ <;>
    rcases hd with ⟨a, ha, has⟩ | ⟨hnlD, a, ha, has⟩
  · rcases List.suffix_or_suffix_of_suffix has hbs with h | h
    · exact (alts_not_suffix a ha b hb).1 h
    · exact (alts_not_suffix a ha b hb).2 h
  · have h1 := suffix_getLast? hnlD (by simp)
    have h2 := suffix_getLast? hbs (numericAlts_ne_nil b hb)
    exact numericAlts_last b hb (by rw [← h2, h1]; rfl)
  · have h1 := suffix_getLast? hnlN (by simp)
    have h2 := suffix_getLast? has (dateAlts_ne_nil a ha)
    exact dateAlts_last a ha (by rw [← h2, h1]; rfl)
  · rcases List.suffix_or_suffix_of_suffix has hbs with h | h
    · exact (alts_not_suffix a ha b hb).1 h
    · exact (alts_not_suffix a ha b hb).2 h

/-- A field name with a numeric hint never has a date hint: no alternative of
either regex is a suffix of one of the other's. -/
theorem numeric_not_date {k : String} (h : NUMERIC_HINT k = true) :
    DATE_FIELDS k = false := by
  cases hd : DATE_FIELDS k
  · rfl
  · exact absurd (searchEnd_conflict k h hd) not_false

/-- A field name with a date hint never has a numeric hint. -/
theorem date_not_numeric {k : String} (h : DATE_FIELDS k = true) :
    NUMERIC_HINT k = false := by
  cases hn : NUMERIC_HINT k
  · rfl
  · exact absurd (searchEnd_conflict k hn h) not_false

/-! ## Dollar/comma stripping lemmas -/

theorem mem_stripDollarComma {cs : List Char} {c : Char}
    (h : c ∈ stripDollarComma cs) : c ∈ cs ∧ ¬ c = '$' ∧ ¬ c = ',' := by
  unfold stripDollarComma removeChar at h
  have h2 := List.mem_filter.mp h
  have h1 := List.mem_filter.mp h2.1
  refine ⟨h1.1, ?_, ?_⟩
  · simpa using h1.2
  · simpa using h2.2

theorem stripDollarComma_eq_self (cs : List Char)
    (h : ∀ c ∈ cs, ¬ c = '$' ∧ ¬ c = ',') : stripDollarComma cs = cs := by
  unfold stripDollarComma removeChar
  rw [List.filter_eq_self.mpr, List.filter_eq_self.mpr]
  · intro c hc
    simpa using (h c hc).1
  · intro c hc
    have hc' := List.mem_filter.mp hc
    simpa using (h c hc'.1).2

/-! ## Digit rendering lemmas -/

theorem digitChar_isDigit {k : Nat} (h : k < 10) : (Nat.digitChar k).isDigit = true := by
  interval_cases k <;> decide

theorem digitChar_val {k : Nat} (h : k < 10) : (Nat.digitChar k).toNat - 48 = k := by
  interval_cases k <;> decide

theorem digitChar_not_ws {k : Nat} (h : k < 10) : isPyWs (Nat.digitChar k) = false := by
  interval_cases k <;> decide

theorem digitChar_plain {k : Nat} (h : k < 10) :
    ¬ Nat.digitChar k = '$' ∧ ¬ Nat.digitChar k = ',' := by
  interval_cases k <;> exact ⟨by decide, by decide⟩

theorem daysInMonth_le (y m : Nat) : daysInMonth y m ≤ 31 := by
  unfold daysInMonth
  split
  · split <;> omega
  · split <;> omega

/-! ## Format matching lemmas -/

theorem parse12_twoDigits (hi v : Nat) (hv1 : 1 ≤ v) (hv2 : v ≤ hi) (hv' : v < 100)
    (rest : List Char) (hrest : rest = [] ∨ ∃ c t, rest = c :: t ∧ c.isDigit = false) :
    parse12 hi (twoDigits v ++ rest) = some (v, rest) := by
  have h1 : v / 10 % 10 < 10 := Nat.mod_lt _ (by norm_num)
  have h2 : v % 10 < 10 := Nat.mod_lt _ (by norm_num)
  have htake : (twoDigits v ++ rest).takeWhile Char.isDigit = twoDigits v := by
    simp only [twoDigits, List.cons_append, List.takeWhile_cons,
      digitChar_isDigit h1, digitChar_isDigit h2, if_true]
    rcases hrest with rfl | ⟨c, t, rfl, hc⟩
    · rfl
    · simp [List.takeWhile_cons, hc]
  have hdrop : (twoDigits v ++ rest).dropWhile Char.isDigit = rest := by
    simp only [twoDigits, List.cons_append, List.dropWhile_cons,
      digitChar_isDigit h1, digitChar_isDigit h2, if_true]
    rcases hrest with rfl | ⟨c, t, rfl, hc⟩
    · rfl
    · simp [List.dropWhile_cons, hc]
  have hval : numValL (twoDigits v) = v := by
    show 10 * (10 * 0 + ((Nat.digitChar (v / 10 % 10)).toNat - 48))
        + ((Nat.digitChar (v % 10)).toNat - 48) = v
    rw [digitChar_val h1, digitChar_val h2]
    omega
  unfold parse12
  rw [htake, hdrop]
  have hlen : (twoDigits v).length = 1 ∨ (twoDigits v).length = 2 := Or.inr rfl
  rw [if_pos hlen, hval, if_pos ⟨hv1, hv2⟩]

theorem parse4_cons (a b c d : Char) (rest : List Char) :
    parse4 (a :: b :: c :: d :: rest)
      = if (a.isDigit && b.isDigit && c.isDigit && d.isDigit) = true
        then some (numValL [a, b, c, d], rest) else none := rfl

theorem parse4_fourDigits (v : Nat) (hv : v < 10000) (rest : List Char) :
    parse4 (fourDigits v ++ rest) = some (v, rest) := by
  have h1 : v / 1000 % 10 < 10 := Nat.mod_lt _ (by norm_num)
  have h2 : v / 100 % 10 < 10 := Nat.mod_lt _ (by norm_num)
  have h3 : v / 10 % 10 < 10 := Nat.mod_lt _ (by norm_num)
  have h4 : v % 10 < 10 := Nat.mod_lt _ (by norm_num)
  have hval : numValL [Nat.digitChar (v / 1000 % 10), Nat.digitChar (v / 100 % 10),
      Nat.digitChar (v / 10 % 10), Nat.digitChar (v % 10)] = v := by
    show 10 * (10 * (10 * (10 * 0 + ((Nat.digitChar (v / 1000 % 10)).toNat - 48))
        + ((Nat.digitChar (v / 100 % 10)).toNat - 48))
        + ((Nat.digitChar (v / 10 % 10)).toNat - 48))
        + ((Nat.digitChar (v % 10)).toNat - 48) = v
    rw [digitChar_val h1, digitChar_val h2, digitChar_val h3, digitChar_val h4]
    omega
  show parse4 (Nat.digitChar (v / 1000 % 10) :: Nat.digitChar (v / 100 % 10) ::
      Nat.digitChar (v / 10 % 10) :: Nat.digitChar (v % 10) :: rest) = some (v, rest)
  rw [parse4_cons, digitChar_isDigit h1, digitChar_isDigit h2, digitChar_isDigit h3,
    digitChar_isDigit h4]
  simp [hval]

theorem strptime_iso_roundtrip (dt : Date) (h : ValidDate dt) :
    strptimeDate "%Y-%m-%d" (strftimeIso dt) = some dt := by
  obtain ⟨h1, h2, h3, h4, h5, h6⟩ := h
  have hdle : dt.day ≤ 31 := le_trans h6 (daysInMonth_le dt.year dt.month)
  have hp12d : parse12 31 (twoDigits dt.day) = some (dt.day, []) := by
    have := parse12_twoDigits 31 dt.day h5 hdle (by omega) [] (Or.inl rfl)
    simpa using this
  have hrun : runToks [FTok.Y, FTok.lit '-', FTok.mo, FTok.lit '-', FTok.dy]
      (fourDigits dt.year ++ '-' :: (twoDigits dt.month ++ '-' :: twoDigits dt.day))
      ⟨none, none, none⟩ = some ⟨some dt.year, some dt.month, some dt.day⟩ := by
    have s1 : runToks [FTok.Y, FTok.lit '-', FTok.mo, FTok.lit '-', FTok.dy]
        (fourDigits dt.year ++ '-' :: (twoDigits dt.month ++ '-' :: twoDigits dt.day))
        ⟨none, none, none⟩
        = match parse4 (fourDigits dt.year ++
            '-' :: (twoDigits dt.month ++ '-' :: twoDigits dt.day)) with
          | some (v, rest) =>
            runToks [FTok.lit '-', FTok.mo, FTok.lit '-', FTok.dy] rest ⟨some v, none, none⟩
          | none => none := rfl
    rw [s1, parse4_fourDigits dt.year (by omega)
      ('-' :: (twoDigits dt.month ++ '-' :: twoDigits dt.day))]
    show runToks [FTok.mo, FTok.lit '-', FTok.dy]
        (twoDigits dt.month ++ '-' :: twoDigits dt.day) ⟨some dt.year, none, none⟩ = _
    have s2 : runToks [FTok.mo, FTok.lit '-', FTok.dy]
        (twoDigits dt.month ++ '-' :: twoDigits dt.day) ⟨some dt.year, none, none⟩
        = match parse12 12 (twoDigits dt.month ++ '-' :: twoDigits dt.day) with
          | some (v, rest) => runToks [FTok.lit '-', FTok.dy] rest ⟨some dt.year, some v, none⟩
          | none => none := rfl
    rw [s2, parse12_twoDigits 12 dt.month h3 h4 (by omega) ('-' :: twoDigits dt.day)
      (Or.inr ⟨'-', twoDigits dt.day, rfl, by decide⟩)]
    show runToks [FTok.dy] (twoDigits dt.day) ⟨some dt.year, some dt.month, none⟩ = _
    have s3 : runToks [FTok.dy] (twoDigits dt.day) ⟨some dt.year, some dt.month, none⟩
        = match parse12 31 (twoDigits dt.day) with
          | some (v, rest) => runToks [] rest ⟨some dt.year, some dt.month, some v⟩
          | none => none := rfl
    rw [s3, hp12d]
    rfl
  have htoks : fmtToks "%Y-%m-%d".data = [.Y, .lit '-', .mo, .lit '-', .dy] := rfl
  have hiso : (strftimeIso dt).data = fourDigits dt.year ++
      '-' :: (twoDigits dt.month ++ '-' :: twoDigits dt.day) := rfl
  unfold strptimeDate
  rw [htoks, hiso, hrun]
  show (if ValidDate ⟨dt.year, dt.month, dt.day⟩ then
      some (⟨dt.year, dt.month, dt.day⟩ : Date) else none) = some dt
  rw [if_pos ⟨h1, h2, h3, h4, h5, h6⟩]

theorem strptimeDate_valid {f s : String} {dt : Date}
    (h : strptimeDate f s = some dt) : ValidDate dt := by
  unfold strptimeDate at h
  rcases hr : runToks (fmtToks f.data) s.data ⟨none, none, none⟩ with _ | parts
  · rw [hr] at h; cases h
  · rw [hr] at h
    simp only at h
    split at h
    · injection h with h'
      rw [← h']
      assumption
    · cases h

theorem tryDateFmts_valid (fs : List String) (s : String) (dt : Date)
    (h : tryDateFmts fs s = some dt) : ValidDate dt := by
  induction fs with
  | nil => cases h
  | cons f fs ih =>
    unfold tryDateFmts at h
    rcases hf : strptimeDate f s with _ | dt'
    · rw [hf] at h
      exact ih h
    · rw [hf] at h
      injection h with h'
      rw [← h']
      exact strptimeDate_valid hf

theorem tryDateFmts_of_get (fs : List String) (s : String) (i : Nat) (dt : Date)
    (hi : i < fs.length) (hp : strptimeDate (fs.get ⟨i, hi⟩) s = some dt)
    (hearlier : ∀ j (hj : j < fs.length), j < i → strptimeDate (fs.get ⟨j, hj⟩) s = none) :
    tryDateFmts fs s = some dt := by
  induction fs generalizing i with
  | nil => exact absurd hi (Nat.not_lt_zero i)
  | cons f fs ih =>
    unfold tryDateFmts
    cases i with
    | zero =>
      have hp' : strptimeDate f s = some dt := hp
      rw [hp']
    | succ i =>
      have hf : strptimeDate f s = none :=
        hearlier 0 (Nat.succ_pos _) (Nat.succ_pos i)
      rw [hf]
      refine ih i (Nat.lt_of_succ_lt_succ hi) hp ?_
      intro j hj hji
      exact hearlier (j + 1) (Nat.succ_lt_succ hj) (Nat.succ_lt_succ hji)

theorem tryDateFmts_none (fs : List String) (s : String)
    (h : ∀ f ∈ fs, strptimeDate f s = none) : tryDateFmts fs s = none := by
  induction fs with
  | nil => rfl
  | cons f fs ih =>
    unfold tryDateFmts
    rw [h f (List.mem_cons_self f fs)]
    exact ih (fun g hg => h g (List.mem_cons_of_mem f hg))

/-! ## `normalize_date` structure lemmas -/

theorem normDateL_eq (cs : List Char) :
    normDateL cs = if (pyStripL cs).isEmpty then []
      else
        match tryDateFmts DATE_FMTS ⟨pyStripL cs⟩ with
        | some dt => isoChars dt
        | none => pyStripL cs := rfl

theorem isoChars_mem (dt : Date) (c : Char) (hc : c ∈ isoChars dt) :
    isPyWs c = false ∧ ¬ c = '$' ∧ ¬ c = ',' := by
  have hmem : c = Nat.digitChar (dt.year / 1000 % 10) ∨ c = Nat.digitChar (dt.year / 100 % 10) ∨
      c = Nat.digitChar (dt.year / 10 % 10) ∨ c = Nat.digitChar (dt.year % 10) ∨ c = '-' ∨
      c = Nat.digitChar (dt.month / 10 % 10) ∨ c = Nat.digitChar (dt.month % 10) ∨ c = '-' ∨
      c = Nat.digitChar (dt.day / 10 % 10) ∨ c = Nat.digitChar (dt.day % 10) := by
    simpa [isoChars, fourDigits, twoDigits, List.mem_append, List.mem_cons, or_assoc]
      using hc
  have hten : ∀ n : Nat, n % 10 < 10 := fun n => Nat.mod_lt _ (by norm_num)
  rcases hmem with rfl | rfl | rfl | rfl | rfl | rfl | rfl | rfl | rfl | rfl
  · exact ⟨digitChar_not_ws (hten _), digitChar_plain (hten _)⟩
  · exact ⟨digitChar_not_ws (hten _), digitChar_plain (hten _)⟩
  · exact ⟨digitChar_not_ws (hten _), digitChar_plain (hten _)⟩
  · exact ⟨digitChar_not_ws (hten _), digitChar_plain (hten _)⟩
  · exact ⟨by decide, by decide, by decide⟩
  · exact ⟨digitChar_not_ws (hten _), digitChar_plain (hten _)⟩
  · exact ⟨digitChar_not_ws (hten _), digitChar_plain (hten _)⟩
  · exact ⟨by decide, by decide, by decide⟩
  · exact ⟨digitChar_not_ws (hten _), digitChar_plain (hten _)⟩
  · exact ⟨digitChar_not_ws (hten _), digitChar_plain (hten _)⟩

theorem pyStripL_isoChars (dt : Date) : pyStripL (isoChars dt) = isoChars dt :=
  pyStripL_eq_self _ (fun c hc => (isoChars_mem dt c hc).1)

theorem isoChars_ne_nil (dt : Date) : ¬ isoChars dt = [] := by
  simp [isoChars, fourDigits]

theorem normDateL_isoChars (dt : Date) (hv : ValidDate dt) :
    normDateL (isoChars dt) = isoChars dt := by
  rw [normDateL_eq, pyStripL_isoChars dt]
  rw [if_neg (by simpa [List.isEmpty_iff] using isoChars_ne_nil dt)]
  have hrt : tryDateFmts DATE_FMTS ⟨isoChars dt⟩ = some dt := by
    have h0 : strptimeDate "%Y-%m-%d" ⟨isoChars dt⟩ = some dt :=
      strptime_iso_roundtrip dt hv
    unfold DATE_FMTS tryDateFmts
    rw [h0]
  rw [hrt]

theorem normDateL_chars (cs : List Char) :
    normDateL cs = [] ∨ (∃ dt, ValidDate dt ∧ normDateL cs = isoChars dt) ∨
      normDateL cs = pyStripL cs := by
  rw [normDateL_eq]
  by_cases hE : (pyStripL cs).isEmpty
  · rw [if_pos hE]
    exact Or.inl rfl
  · rw [if_neg hE]
    rcases htry : tryDateFmts DATE_FMTS ⟨pyStripL cs⟩ with _ | dt
    · exact Or.inr (Or.inr rfl)
    · exact Or.inr (Or.inl ⟨dt, tryDateFmts_valid _ _ _ htry, rfl⟩)

theorem pyStripL_normDateL (cs : List Char) :
    pyStripL (normDateL cs) = normDateL cs := by
  rcases normDateL_chars cs with h | ⟨dt, _, h⟩ | h <;> rw [h]
  · rfl
  · exact pyStripL_isoChars dt
  · exact pyStripL_idem cs

theorem normDateL_idem (cs : List Char) : normDateL (normDateL cs) = normDateL cs := by
  rw [normDateL_eq cs]
  by_cases hE : (pyStripL cs).isEmpty
  · rw [if_pos hE]
    rfl
  · rw [if_neg hE]
    rcases htry : tryDateFmts DATE_FMTS ⟨pyStripL cs⟩ with _ | dt
    · rw [normDateL_eq, pyStripL_idem, if_neg hE, htry]
    · exact normDateL_isoChars dt (tryDateFmts_valid _ _ _ htry)

/-! ## Post-processing lemmas -/

theorem ppChain_eq (k : String) (cs : List Char) :
    ppChain k cs = if DATE_FIELDS k
      then normDateL (if NUMERIC_HINT k
        then pyStripL (stripDollarComma (pyStripL cs)) else pyStripL cs)
      else (if NUMERIC_HINT k
        then pyStripL (stripDollarComma (pyStripL cs)) else pyStripL cs) := rfl

theorem sdc_pyStripL_sdc (cs : List Char) :
    stripDollarComma (pyStripL (stripDollarComma cs)) = pyStripL (stripDollarComma cs) :=
  stripDollarComma_eq_self _
    (fun _ hc => (mem_stripDollarComma (mem_of_mem_pyStripL hc)).2)

theorem stripDollarComma_normDateL (cs : List Char)
    (hcs : ∀ c ∈ pyStripL cs, ¬ c = '$' ∧ ¬ c = ',') :
    stripDollarComma (normDateL cs) = normDateL cs := by
  rcases normDateL_chars cs with h | ⟨dt, _, h⟩ | h <;> rw [h]
  · rfl
  · exact stripDollarComma_eq_self _ (fun c hc => (isoChars_mem dt c hc).2)
  · exact stripDollarComma_eq_self _ hcs

theorem ppChain_idem (k : String) (cs : List Char) :
    ppChain k (ppChain k cs) = ppChain k cs := by
  cases hN : NUMERIC_HINT k <;> cases hD : DATE_FIELDS k <;>
    simp only [ppChain_eq, hN, hD, Bool.false_eq_true, if_false, if_true, ite_false, ite_true]
  · exact pyStripL_idem cs
  · rw [pyStripL_normDateL, normDateL_idem]
  · rw [pyStripL_idem (stripDollarComma (pyStripL cs)), sdc_pyStripL_sdc,
      pyStripL_idem (stripDollarComma (pyStripL cs))]
  · rw [pyStripL_normDateL, stripDollarComma_normDateL, pyStripL_normDateL, normDateL_idem]
    intro c hc
    exact (mem_stripDollarComma
      (mem_of_mem_pyStripL (mem_of_mem_pyStripL hc))).2

theorem ppChain_nil (k : String) : ppChain k [] = [] := by
  rw [ppChain_eq]
  rw [show pyStripL ([] : List Char) = [] from rfl]
  rw [show stripDollarComma ([] : List Char) = [] from rfl]
  rw [show pyStripL ([] : List Char) = [] from rfl]
  rw [ite_self]
  rw [show normDateL ([] : List Char) = [] from rfl, ite_self]

theorem postprocess_field_str (k : String) (cs : List Char) :
    postprocess_field k (.str ⟨cs⟩) = .str ⟨ppChain k cs⟩ := rfl

theorem postprocess_field_empty (k : String) :
    postprocess_field k (.str "") = .str "" := by
  have h : postprocess_field k (.str "") = .str ⟨ppChain k []⟩ := rfl
  rw [h, ppChain_nil]

theorem postprocess_field_idem (k : String) (v : PyVal) :
    postprocess_field k (postprocess_field k v) = postprocess_field k v := by
  cases v with
  | null => exact postprocess_field_empty k
  | bool b => rfl
  | int n => rfl
  | float q => rfl
  | str s =>
    have h1 : postprocess_field k (.str s) = .str ⟨ppChain k s.data⟩ := rfl
    rw [h1, postprocess_field_str, ppChain_idem]
  | list xs =>
    have h1 : postprocess_field k (.list xs)
        = .str ⟨ppChain k (pyStr (.list xs))⟩ := rfl
    rw [h1, postprocess_field_str, ppChain_idem]
  | dict kvs =>
    have h1 : postprocess_field k (.dict kvs)
        = .str ⟨ppChain k (pyStr (.dict kvs))⟩ := rfl
    rw [h1, postprocess_field_str, ppChain_idem]

theorem noneToEmpty_postprocess (k : String) (v : PyVal) :
    noneToEmpty (postprocess_field k v) = postprocess_field k v := by
  cases v <;> rfl

theorem postprocess_field_not_null (k : String) (v : PyVal) :
    ¬ postprocess_field k v = .null := by
  cases v <;> intro h <;> exact PyVal.noConfusion h

/-! ## Shape lemmas -/

theorem ensure_all_fields_eq (r : PyVal) :
    ensure_all_fields r CANONICAL_SCHEMA
      = .dict (CANONICAL_SCHEMA.map fun sc =>
          (sc.1, .dict ((secFields sc.2).map fun k =>
            (k, noneToEmpty (pyGet (sectionItems r sc.1) k (.str "")))))) := rfl

theorem shapeOf_dict (l : List (String × PyVal)) :
    shapeOf (.dict l) = l.map fun p => (p.1, secFields p.2) := rfl

theorem secFields_of_map (ks : List String) (f : String → PyVal) :
    secFields (.dict (ks.map fun k => (k, f k))) = ks := by
  show (ks.map fun k => (k, f k)).map Prod.fst = ks
  rw [List.map_map]
  have h : (Prod.fst ∘ fun k : String => ((k, f k) : String × PyVal)) = id := rfl
  rw [h, List.map_id]

theorem ensure_shape (r : PyVal) :
    shapeOf (ensure_all_fields r CANONICAL_SCHEMA) = canonicalShape := by
  rw [ensure_all_fields_eq, shapeOf_dict, List.map_map]
  unfold canonicalShape
  apply List.map_congr_left
  intro sc _
  show (sc.1, secFields (.dict ((secFields sc.2).map fun k =>
      (k, noneToEmpty (pyGet (sectionItems r sc.1) k (.str "")))))) = (sc.1, secFields sc.2)
  rw [secFields_of_map]

/-- The Normalizer in closed form: for every schema section and field, the
post-processed raw lookup. -/
theorem normalizeResponse_eq (v : PyVal) :
    normalizeResponse v
      = .dict (CANONICAL_SCHEMA.map fun sc =>
          (sc.1, .dict ((secFields sc.2).map fun k =>
            (k, postprocess_field k
              (noneToEmpty (pyGet (sectionItems v sc.1) k (.str ""))))))) := by
  unfold normalizeResponse
  rw [ensure_all_fields_eq]
  show PyVal.dict ((CANONICAL_SCHEMA.map fun sc =>
      (sc.1, PyVal.dict ((secFields sc.2).map fun k =>
        (k, noneToEmpty (pyGet (sectionItems v sc.1) k (.str "")))))).map fun sc =>
      (sc.1, match sc.2 with
        | .dict kvs => PyVal.dict (kvs.map fun kv => (kv.1, postprocess_field kv.1 kv.2))
        | c => c)) = _
  rw [List.map_map]
  refine congrArg PyVal.dict (List.map_congr_left ?_)
  intro sc _
  show (sc.1, PyVal.dict (((secFields sc.2).map fun k =>
      (k, noneToEmpty (pyGet (sectionItems v sc.1) k (PyVal.str "")))).map fun kv =>
      (kv.1, postprocess_field kv.1 kv.2))) =
    (sc.1, PyVal.dict ((secFields sc.2).map fun k =>
      (k, postprocess_field k (noneToEmpty (pyGet (sectionItems v sc.1) k (PyVal.str ""))))))
  rw [List.map_map]
  rfl

theorem shapeOf_postprocess (l : List (String × PyVal)) :
    shapeOf (postprocess_all (.dict l)) = shapeOf (.dict l) := by
  show shapeOf (PyVal.dict (l.map fun sc =>
      (sc.1, match sc.2 with
        | .dict kvs => PyVal.dict (kvs.map fun kv => (kv.1, postprocess_field kv.1 kv.2))
        | c => c))) = _
  rw [shapeOf_dict, shapeOf_dict, List.map_map]
  apply List.map_congr_left
  intro sc _
  rcases sc with ⟨s, v⟩
  cases v <;> simp [secFields, List.map_map]

theorem sectionItems_normalizeResponse (v : PyVal) (sc : String × PyVal)
    (hsc : sc ∈ CANONICAL_SCHEMA) :
    sectionItems (normalizeResponse v) sc.1
      = (secFields sc.2).map fun k =>
          (k, postprocess_field k
            (noneToEmpty (pyGet (sectionItems v sc.1) k (.str "")))) := by
  rw [normalizeResponse_eq]
  show (match pyGet (CANONICAL_SCHEMA.map fun sc' =>
      (sc'.1, PyVal.dict ((secFields sc'.2).map fun k =>
        (k, postprocess_field k
          (noneToEmpty (pyGet (sectionItems v sc'.1) k (PyVal.str ""))))))) sc.1
      (PyVal.dict []) with
    | PyVal.dict secKvs => secKvs
    | _ => []) = _
  rw [pyGet_map_pair CANONICAL_SCHEMA
    (fun sc' => PyVal.dict ((secFields sc'.2).map fun k =>
      (k, postprocess_field k
        (noneToEmpty (pyGet (sectionItems v sc'.1) k (PyVal.str ""))))))
    sc (PyVal.dict []) hsc schema_sections_nodup]

theorem ensure_fix (v : PyVal) :
    ensure_all_fields (normalizeResponse v) CANONICAL_SCHEMA = normalizeResponse v := by
  rw [ensure_all_fields_eq]
  conv_rhs => rw [normalizeResponse_eq]
  refine congrArg PyVal.dict (List.map_congr_left ?_)
  intro sc hsc
  refine congrArg (fun A => (sc.1, PyVal.dict A)) (List.map_congr_left ?_)
  intro k hk
  rw [sectionItems_normalizeResponse v sc hsc]
  rw [pyGet_map_self (secFields sc.2) _ k _ hk]
  rw [noneToEmpty_postprocess]

theorem postprocess_all_normalizeResponse (v : PyVal) :
    postprocess_all (normalizeResponse v) = normalizeResponse v := by
  conv_lhs => rw [normalizeResponse_eq]
  conv_rhs => rw [normalizeResponse_eq]
  show PyVal.dict ((CANONICAL_SCHEMA.map fun sc =>
      (sc.1, PyVal.dict ((secFields sc.2).map fun k =>
        (k, postprocess_field k
          (noneToEmpty (pyGet (sectionItems v sc.1) k (PyVal.str ""))))))).map fun sc =>
      (sc.1, match sc.2 with
        | .dict kvs => PyVal.dict (kvs.map fun kv => (kv.1, postprocess_field kv.1 kv.2))
        | c => c)) = _
  rw [List.map_map]
  refine congrArg PyVal.dict (List.map_congr_left ?_)
  intro sc _
  show (sc.1, PyVal.dict (((secFields sc.2).map fun k =>
      (k, postprocess_field k
        (noneToEmpty (pyGet (sectionItems v sc.1) k (PyVal.str ""))))).map fun kv =>
      (kv.1, postprocess_field kv.1 kv.2))) = _
  rw [List.map_map]
  refine congrArg (fun A => (sc.1, PyVal.dict A)) (List.map_congr_left ?_)
  intro k _
  show (k, postprocess_field k (postprocess_field k
      (noneToEmpty (pyGet (sectionItems v sc.1) k (PyVal.str ""))))) = _
  rw [postprocess_field_idem]

theorem getField_normalizeResponse (v : PyVal) (sc : String × PyVal) (k : String)
    (hsc : sc ∈ CANONICAL_SCHEMA) (hk : k ∈ secFields sc.2) :
    getField (normalizeResponse v) sc.1 k
      = postprocess_field k
          (noneToEmpty (pyGet (sectionItems v sc.1) k (.str ""))) := by
  rw [normalizeResponse_eq]
  show (match pyGet (CANONICAL_SCHEMA.map fun sc' =>
      (sc'.1, PyVal.dict ((secFields sc'.2).map fun k' =>
        (k', postprocess_field k'
          (noneToEmpty (pyGet (sectionItems v sc'.1) k' (PyVal.str ""))))))) sc.1
      PyVal.null with
    | PyVal.dict fkvs => pyGet fkvs k PyVal.null
    | _ => PyVal.null) = _
  rw [pyGet_map_pair CANONICAL_SCHEMA
    (fun sc' => PyVal.dict ((secFields sc'.2).map fun k' =>
      (k', postprocess_field k'
        (noneToEmpty (pyGet (sectionItems v sc'.1) k' (PyVal.str ""))))))
    sc PyVal.null hsc schema_sections_nodup]
  show pyGet ((secFields sc.2).map fun k' =>
      (k', postprocess_field k'
        (noneToEmpty (pyGet (sectionItems v sc.1) k' (PyVal.str ""))))) k PyVal.null = _
  rw [pyGet_map_self (secFields sc.2) _ k _ hk]

theorem getField_ensure (r : PyVal) (sc : String × PyVal) (k : String)
    (hsc : sc ∈ CANONICAL_SCHEMA) (hk : k ∈ secFields sc.2) :
    getField (ensure_all_fields r CANONICAL_SCHEMA) sc.1 k
      = noneToEmpty (pyGet (sectionItems r sc.1) k (.str "")) := by
  rw [ensure_all_fields_eq]
  show (match pyGet (CANONICAL_SCHEMA.map fun sc' =>
      (sc'.1, PyVal.dict ((secFields sc'.2).map fun k' =>
        (k', noneToEmpty (pyGet (sectionItems r sc'.1) k' (PyVal.str "")))))) sc.1
      PyVal.null with
    | PyVal.dict fkvs => pyGet fkvs k PyVal.null
    | _ => PyVal.null) = _
  rw [pyGet_map_pair CANONICAL_SCHEMA
    (fun sc' => PyVal.dict ((secFields sc'.2).map fun k' =>
      (k', noneToEmpty (pyGet (sectionItems r sc'.1) k' (PyVal.str "")))))
    sc PyVal.null hsc schema_sections_nodup]
  show pyGet ((secFields sc.2).map fun k' =>
      (k', noneToEmpty (pyGet (sectionItems r sc.1) k' (PyVal.str "")))) k PyVal.null = _
  rw [pyGet_map_self (secFields sc.2) _ k _ hk]

theorem canonicalShape_mem {sec : String} {fields : List String}
    (h : (sec, fields) ∈ canonicalShape) :
    ∃ sc, sc ∈ CANONICAL_SCHEMA ∧ sc.1 = sec ∧ secFields sc.2 = fields := by
  unfold canonicalShape at h
  rcases List.mem_map.mp h with ⟨sc, hsc, heq⟩
  exact ⟨sc, hsc, congrArg Prod.fst heq, congrArg Prod.snd heq⟩

theorem normDateL_pyStripL (cs : List Char) : normDateL (pyStripL cs) = normDateL cs := by
  rw [normDateL_eq, normDateL_eq, pyStripL_idem]

theorem normalizeResponse_empty : normalizeResponse (.dict []) = allEmptyResult := by
  rw [normalizeResponse_eq]
  unfold allEmptyResult
  refine congrArg PyVal.dict (List.map_congr_left ?_)
  intro sc _
  refine congrArg (fun A => (sc.1, PyVal.dict A)) (List.map_congr_left ?_)
  intro k _
  show (k, postprocess_field k (noneToEmpty
      (pyGet (sectionItems (.dict []) sc.1) k (.str "")))) = (k, PyVal.str "")
  rw [show sectionItems (.dict []) sc.1 = [] from rfl]
  show (k, postprocess_field k (noneToEmpty (.str ""))) = (k, PyVal.str "")
  rw [show noneToEmpty (.str "") = .str "" from rfl, postprocess_field_empty]

/-- Every normalized field is a string unless the raw value was an
int/float/bool, which passes through unchanged. -/
theorem field_str_or_passthrough (v : PyVal) (sc : String × PyVal) (k : String)
    (hsc : sc ∈ CANONICAL_SCHEMA) (hk : k ∈ secFields sc.2) :
    (∃ s : String, getField (normalizeResponse v) sc.1 k = .str s) ∨
    (pyIsNum (getField (normalizeResponse v) sc.1 k) = true ∧
      getField (normalizeResponse v) sc.1 k
        = noneToEmpty (pyGet (sectionItems v sc.1) k (.str ""))) := by
  rw [getField_normalizeResponse v sc k hsc hk]
  rcases hw : noneToEmpty (pyGet (sectionItems v sc.1) k (.str ""))
    with _ | b | n | q | s | xs | kvs
  · exact Or.inl ⟨"", rfl⟩
  · exact Or.inr ⟨rfl, rfl⟩
  · exact Or.inr ⟨rfl, rfl⟩
  · exact Or.inr ⟨rfl, rfl⟩
  · exact Or.inl ⟨⟨ppChain k s.data⟩, rfl⟩
  · exact Or.inl ⟨⟨ppChain k (pyStr (.list xs))⟩, rfl⟩
  · exact Or.inl ⟨⟨ppChain k (pyStr (.dict kvs))⟩, rfl⟩

theorem text_ok_nil : text_ok [] = false := by
  simp only [text_ok, decide_eq_false_iff_not]
  simp [avg_len]

/-- A single page of 301 characters. -/
def page301 : String := ⟨List.replicate 301 'a'⟩

/-- A single page of 300 characters. -/
def page300 : String := ⟨List.replicate 300 'a'⟩

/-- The spec's fenced model response example. -/
def fencedResponse : String :=
  "```json\n\x7b\"order_metadata\": \x7b\"order_id\": \"A-1\"\x7d\x7d\n```"

/-! ## Claim theorems -/

/-- C1: for every input value — a non-dict, an empty dict, `None`-valued
sections, extra or missing sections and fields — `ensure_all_fields` with the
canonical schema yields exactly the canonical schema's key set at both
nesting levels, and every field is the raw lookup with missing or `None`
values replaced by the empty string. -/
theorem ensure_all_fields_shape_total (r : PyVal) :
    shapeOf (ensure_all_fields r CANONICAL_SCHEMA) = canonicalShape ∧
    ∀ sec fields, (sec, fields) ∈ canonicalShape → ∀ k ∈ fields,
      getField (ensure_all_fields r CANONICAL_SCHEMA) sec k
        = noneToEmpty (pyGet (sectionItems r sec) k (.str "")) := by
  refine ⟨ensure_shape r, ?_⟩
  intro sec fields hmem k hk
  rcases canonicalShape_mem hmem with ⟨sc, hsc, h1, h2⟩
  subst h1
  exact getField_ensure r sc k hsc (h2 ▸ hk)

theorem ensure_all_fields_shape_total_witness :
    (("clinical", ["patient_allergies", "patient_diseases",
      "patient_medication_history", "patient_encounters"]) ∈ canonicalShape) ∧
    "patient_allergies" ∈ ["patient_allergies", "patient_diseases",
      "patient_medication_history", "patient_encounters"] ∧
    getField (ensure_all_fields (PyVal.str "junk") CANONICAL_SCHEMA)
      "clinical" "patient_allergies" = PyVal.str "" := by
  refine ⟨by decide, by decide, ?_⟩
  have h := (ensure_all_fields_shape_total (PyVal.str "junk")).2 "clinical"
    ["patient_allergies", "patient_diseases", "patient_medication_history",
      "patient_encounters"] (by decide) "patient_allergies" (by decide)
  rw [h]
  rfl

/-- C2: the Response Normalizer (`ensure_all_fields` then `postprocess_all`)
is a total function of the embedded value — it is defined on every `PyVal`
(dict, list, string, number, null, nested mixtures, non-string field values)
and always returns a result whose shape is exactly the canonical schema's. -/
theorem normalizer_total_shape (v : PyVal) :
    shapeOf (normalizeResponse v) = canonicalShape := by
  have h1 : normalizeResponse v
      = postprocess_all (.dict (CANONICAL_SCHEMA.map fun sc =>
          (sc.1, .dict ((secFields sc.2).map fun k =>
            (k, noneToEmpty (pyGet (sectionItems v sc.1) k (.str ""))))))) := by
    unfold normalizeResponse
    rw [ensure_all_fields_eq]
  rw [h1, shapeOf_postprocess, ← ensure_all_fields_eq]
  exact ensure_shape v

/-- C3: for a string value of a date-hint field the normalizer applies
`normalize_date`, which tries the seven formats in order on the trimmed
string; the first format that parses wins and is re-emitted as ISO; when no
format parses the trimmed string is returned unchanged.  In particular
`"03/15/2024"` and `"15 Mar 2024"` map to `"2024-03-15"`, `"not-a-date"` and
the empty string are unchanged. -/
theorem date_normalization_policy :
    (∀ k s, DATE_FIELDS k = true →
      postprocess_field k (.str s) = .str (normalize_date s)) ∧
    (∀ s i dt (hi : i < DATE_FMTS.length),
      strptimeDate (DATE_FMTS.get ⟨i, hi⟩) (pyStrip s) = some dt →
      (∀ j (hj : j < DATE_FMTS.length), j < i →
        strptimeDate (DATE_FMTS.get ⟨j, hj⟩) (pyStrip s) = none) →
      normalize_date s = strftimeIso dt) ∧
    (∀ s, (∀ f ∈ DATE_FMTS, strptimeDate f (pyStrip s) = none) →
      normalize_date s = pyStrip s) ∧
    normalize_date "03/15/2024" = "2024-03-15" ∧
    normalize_date "15 Mar 2024" = "2024-03-15" ∧
    normalize_date "not-a-date" = "not-a-date" ∧
    normalize_date "" = "" := by
  refine ⟨?_, ?_, ?_, rfl, rfl, rfl, rfl⟩
  · intro k s hD
    have hN : NUMERIC_HINT k = false := date_not_numeric hD
    rw [postprocess_field_str k s.data]
    show PyVal.str ⟨ppChain k s.data⟩ = .str ⟨normDateL s.data⟩
    rw [ppChain_eq]
    simp only [hD, hN, Bool.false_eq_true, if_false, if_true, ite_false, ite_true]
    rw [normDateL_pyStripL]
  · intro s i dt hi hp hearlier
    have htry := tryDateFmts_of_get DATE_FMTS (pyStrip s) i dt hi hp hearlier
    show (⟨normDateL s.data⟩ : String) = _
    rw [normDateL_eq]
    have hne : (pyStripL s.data).isEmpty = false := by
      cases hE : (pyStripL s.data).isEmpty
      · rfl
      · exfalso
        have ht : pyStripL s.data = [] := List.isEmpty_iff.mp hE
        have hps : pyStrip s = "" := by
          unfold pyStrip
          rw [ht]
        have hall : ∀ f ∈ DATE_FMTS, strptimeDate f "" = none := by decide
        have hnone : strptimeDate (DATE_FMTS.get ⟨i, hi⟩) (pyStrip s) = none := by
          rw [hps]
          exact hall _ (DATE_FMTS.get_mem i hi)
        rw [hnone] at hp
        cases hp
    rw [hne]
    simp only [Bool.false_eq_true, if_false, ite_false]
    have htry' : tryDateFmts DATE_FMTS ⟨pyStripL s.data⟩ = some dt := htry
    rw [htry']
    rfl
  · intro s hall
    show (⟨normDateL s.data⟩ : String) = pyStrip s
    rw [normDateL_eq]
    cases hE : (pyStripL s.data).isEmpty
    · simp only [Bool.false_eq_true, if_false, ite_false]
      have htry : tryDateFmts DATE_FMTS ⟨pyStripL s.data⟩ = none :=
        tryDateFmts_none _ _ (fun f hf => hall f hf)
      rw [htry]
      rfl
    · simp only [if_true, ite_true]
      have ht : pyStripL s.data = [] := List.isEmpty_iff.mp hE
      show ("" : String) = pyStrip s
      unfold pyStrip
      rw [ht]

theorem date_normalization_policy_witness :
    strptimeDate (DATE_FMTS.get (⟨0, by decide⟩ : Fin DATE_FMTS.length))
      (pyStrip " 2024-12-31 ") = some ⟨2024, 12, 31⟩ ∧
    normalize_date " 2024-12-31 " = strftimeIso ⟨2024, 12, 31⟩ ∧
    DATE_FIELDS "ship_date" = true ∧
    postprocess_field "ship_date" (.str " 2024-12-31 ")
      = .str (normalize_date " 2024-12-31 ") := by
  refine ⟨rfl, ?_, rfl, date_normalization_policy.1 "ship_date" " 2024-12-31 " rfl⟩
  exact date_normalization_policy.2.1 " 2024-12-31 " 0 ⟨2024, 12, 31⟩ (by decide) rfl
    (fun j hj hji => absurd hji (Nat.not_lt_zero j))

/-- C4: the recovery policy of `extract_invoice`: a parse success is used
directly; on failure the fence-stripped retry's success is used; when both
fail the normalizer input is the empty mapping and the pipeline returns the
all-empty shaped result, never an error.  The fenced example parses after
fence-stripping and `"not json at all"` yields the all-empty result. -/
theorem raw_output_recovery_policy :
    (∀ raw v, json_loads raw = some v → recoverParse raw = v) ∧
    (∀ raw v, json_loads raw = none → json_loads (stripFences raw) = some v →
      recoverParse raw = v) ∧
    (∀ raw, json_loads raw = none → json_loads (stripFences raw) = none →
      extractShape raw = allEmptyResult) ∧
    (json_loads fencedResponse = none ∧
      json_loads (stripFences fencedResponse)
        = some (.dict [("order_metadata", .dict [("order_id", .str "A-1")])])) ∧
    extractShape "not json at all" = allEmptyResult := by
  refine ⟨?_, ?_, ?_, ⟨rfl, rfl⟩, ?_⟩
  · intro raw v h
    unfold recoverParse
    rw [h]
  · intro raw v h1 h2
    unfold recoverParse
    rw [h1, h2]
  · intro raw h1 h2
    unfold extractShape recoverParse
    rw [h1, h2]
    exact normalizeResponse_empty
  · unfold extractShape
    rw [show recoverParse "not json at all" = .dict [] from rfl]
    exact normalizeResponse_empty

theorem raw_output_recovery_policy_witness :
    json_loads "@@nonsense@@" = none ∧
    json_loads (stripFences "@@nonsense@@") = none ∧
    extractShape "@@nonsense@@" = allEmptyResult :=
  ⟨rfl, rfl, raw_output_recovery_policy.2.2.1 "@@nonsense@@" rfl rfl⟩

/-- C5: the Normalizer is idempotent — applying it to its own output returns
that output unchanged, for every input value. -/
theorem normalizer_idempotent (v : PyVal) :
    normalizeResponse (normalizeResponse v) = normalizeResponse v := by
  show postprocess_all (ensure_all_fields (normalizeResponse v) CANONICAL_SCHEMA)
      = normalizeResponse v
  rw [ensure_fix]
  exact postprocess_all_normalizeResponse v

/-- C6 counterexample: `order_date` does not match the numeric hint, yet its
string value is not merely stringified and trimmed — it is date-reparsed. -/
theorem nonnumeric_field_not_only_trimmed :
    NUMERIC_HINT "order_date" = false ∧
    postprocess_field "order_date" (.str "03/15/2024") = .str "2024-03-15" ∧
    ¬ postprocess_field "order_date" (.str "03/15/2024") = .str "03/15/2024" := by
  refine ⟨rfl, rfl, ?_⟩
  intro h
  rw [show postprocess_field "order_date" (.str "03/15/2024")
      = .str "2024-03-15" from rfl] at h
  have h2 : "2024-03-15" = "03/15/2024" := by injection h
  exact absurd h2 (by decide)

/-- C6 (amended): a string value of a numeric-hint field has every `$` and
`,` removed after trimming (and is re-trimmed); a field matching neither the
numeric hint nor the date hint is only stringified and trimmed.  In
particular `unit_price`'s `"$1,250.50"` becomes `"1250.50"` while
`tracking_number`'s is only trimmed. -/
theorem numeric_hint_stripping :
    (∀ k s, NUMERIC_HINT k = true →
      postprocess_field k (.str s)
        = .str (pyStrip ⟨stripDollarComma (pyStripL s.data)⟩)) ∧
    (∀ k s, NUMERIC_HINT k = false → DATE_FIELDS k = false →
      postprocess_field k (.str s) = .str (pyStrip s)) ∧
    postprocess_field "unit_price" (.str "$1,250.50") = .str "1250.50" ∧
    postprocess_field "tracking_number" (.str "$1,250.50") = .str "$1,250.50" := by
  refine ⟨?_, ?_, rfl, rfl⟩
  · intro k s hN
    have hD : DATE_FIELDS k = false := numeric_not_date hN
    rw [postprocess_field_str k s.data]
    show PyVal.str ⟨ppChain k s.data⟩ = _
    rw [ppChain_eq]
    simp only [hN, hD, Bool.false_eq_true, if_false, if_true, ite_false, ite_true]
    rfl
  · intro k s hN hD
    rw [postprocess_field_str k s.data]
    show PyVal.str ⟨ppChain k s.data⟩ = _
    rw [ppChain_eq]
    simp only [hN, hD, Bool.false_eq_true, if_false, ite_false]
    rfl

theorem numeric_hint_stripping_witness :
    NUMERIC_HINT "tax_amount" = true ∧
    postprocess_field "tax_amount" (.str " $ 1,2 ")
      = .str (pyStrip ⟨stripDollarComma (pyStripL " $ 1,2 ".data)⟩) ∧
    postprocess_field "tax_amount" (.str " $ 1,2 ") = .str "12" :=
  ⟨rfl, numeric_hint_stripping.1 "tax_amount" " $ 1,2 " rfl, rfl⟩

/-- C7: with the vision override not set, text mode is selected exactly when
the average characters per page strictly exceed 300; the decision is a pure
function of the page lengths; average 301 selects text, average 300 selects
vision. -/
theorem sniffer_threshold :
    (∀ pages : List String,
      chooseMode pages true = Mode.text ↔ (300 : ℚ) < avg_len pages) ∧
    (∀ p1 p2 : List String, p1.map String.length = p2.map String.length →
      ∀ b, chooseMode p1 b = chooseMode p2 b) ∧
    avg_len [page301] = 301 ∧ chooseMode [page301] true = Mode.text ∧
    avg_len [page300] = 300 ∧ chooseMode [page300] true = Mode.vision := by
  have h301 : avg_len [page301] = 301 := by
    have h : page301.length = 301 := rfl
    simp [avg_len, h]
  have h300 : avg_len [page300] = 300 := by
    have h : page300.length = 300 := rfl
    simp [avg_len, h]
  refine ⟨?_, ?_, h301, ?_, h300, ?_⟩
  · intro pages
    unfold chooseMode text_ok
    by_cases h : (300 : ℚ) < avg_len pages
    · simp [h]
    · simp [h]
  · intro p1 p2 h b
    have hlen : p1.length = p2.length := by
      have h2 := congrArg List.length h
      simpa using h2
    have hsum : (p1.map String.length).sum = (p2.map String.length).sum := by rw [h]
    unfold chooseMode text_ok avg_len
    rw [hsum, hlen]
  · have ht : text_ok [page301] = true := by
      simp only [text_ok, decide_eq_true_eq, h301]
      norm_num
    simp [chooseMode, ht]
  · have ht : text_ok [page300] = false := by
      simp only [text_ok, decide_eq_false_iff_not, h300]
      norm_num
    simp [chooseMode, ht]

theorem sniffer_threshold_witness :
    (["ab"] : List String).map String.length
      = (["cd"] : List String).map String.length ∧
    chooseMode ["ab"] true = chooseMode ["cd"] true :=
  ⟨rfl, sniffer_threshold.2.1 ["ab"] ["cd"] rfl true⟩

/-- C8 counterexample: an integer field value passes through the pipeline
unchanged, so the final result does not map every schema field to a
string. -/
theorem pipeline_output_int_field :
    getField (normalizeResponse
        (.dict [("payment", .dict [("payor_zip", .int 12345)])]))
      "payment" "payor_zip" = .int 12345 ∧
    isStr (getField (normalizeResponse
        (.dict [("payment", .dict [("payor_zip", .int 12345)])]))
      "payment" "payor_zip") = false :=
  ⟨rfl, rfl⟩

/-- C8 (amended): every schema field of the final result is a string, except
that fields whose raw values are Python numbers (ints, floats, or bools, as
`isinstance(v, (int, float))` admits bools) pass through unchanged. -/
theorem pipeline_fields_string_or_number (v : PyVal) :
    ∀ sec fields, (sec, fields) ∈ canonicalShape → ∀ k ∈ fields,
      (∃ s : String, getField (normalizeResponse v) sec k = .str s) ∨
      (pyIsNum (getField (normalizeResponse v) sec k) = true ∧
        getField (normalizeResponse v) sec k
          = noneToEmpty (pyGet (sectionItems v sec) k (.str ""))) := by
  intro sec fields hmem k hk
  rcases canonicalShape_mem hmem with ⟨sc, hsc, h1, h2⟩
  subst h1
  exact field_str_or_passthrough v sc k hsc (h2 ▸ hk)

theorem pipeline_fields_string_or_number_witness :
    (("payment", ["payor", "payor_lastname", "payor_firstname", "payor_address",
      "payor_address_line1", "payor_address_line2", "payor_city", "payor_state",
      "payor_zip"]) ∈ canonicalShape) ∧
    "payor_zip" ∈ ["payor", "payor_lastname", "payor_firstname", "payor_address",
      "payor_address_line1", "payor_address_line2", "payor_city", "payor_state",
      "payor_zip"] ∧
    ((∃ s : String, getField (normalizeResponse (PyVal.dict [])) "payment" "payor_zip"
        = .str s) ∨
      (pyIsNum (getField (normalizeResponse (PyVal.dict [])) "payment" "payor_zip") = true ∧
        getField (normalizeResponse (PyVal.dict [])) "payment" "payor_zip"
          = noneToEmpty (pyGet (sectionItems (PyVal.dict []) "payment") "payor_zip"
              (.str "")))) :=
  ⟨by decide, by decide,
    pipeline_fields_string_or_number (PyVal.dict []) "payment"
      ["payor", "payor_lastname", "payor_firstname", "payor_address",
        "payor_address_line1", "payor_address_line2", "payor_city", "payor_state",
        "payor_zip"] (by decide) "payor_zip" (by decide)⟩

/-- C9 counterexample: the canonical schema has SEVEN section keys (the seven
names the spec itself lists), not six; and a field can carry a non-string
(numeric) value in the output. -/
theorem schema_has_seven_sections :
    CANONICAL_SCHEMA.map Prod.fst
      = ["order_metadata", "patient_information", "prescriber_information", "payment",
         "shipping_delivery", "medication_prescription_data", "clinical"] ∧
    (CANONICAL_SCHEMA.map Prod.fst).length = 7 ∧
    ¬ (CANONICAL_SCHEMA.map Prod.fst).length = 6 ∧
    getField (normalizeResponse
        (.dict [("order_metadata", .dict [("priority", .int 2)])]))
      "order_metadata" "priority" = .int 2 := by
  refine ⟨rfl, rfl, ?_, rfl⟩
  intro h
  have h7 : (CANONICAL_SCHEMA.map Prod.fst).length = 7 := rfl
  rw [h7] at h
  exact absurd h (by decide)

/-- C9 (amended): the output mirrors the canonical schema's nested shape with
seven fixed section keys — `order_metadata`, `patient_information`,
`prescriber_information`, `payment`, `shipping_delivery`,
`medication_prescription_data`, `clinical` — each a fixed field set whose
values are strings except for numeric (int/float/bool) pass-through. -/
theorem output_mirrors_schema (v : PyVal) :
    (shapeOf (normalizeResponse v)).map Prod.fst
      = ["order_metadata", "patient_information", "prescriber_information", "payment",
         "shipping_delivery", "medication_prescription_data", "clinical"] ∧
    shapeOf (normalizeResponse v) = canonicalShape ∧
    ∀ sec fields, (sec, fields) ∈ canonicalShape → ∀ k ∈ fields,
      (∃ s : String, getField (normalizeResponse v) sec k = .str s) ∨
      pyIsNum (getField (normalizeResponse v) sec k) = true := by
  have hshape : shapeOf (normalizeResponse v) = canonicalShape := by
    have h1 : normalizeResponse v
        = postprocess_all (.dict (CANONICAL_SCHEMA.map fun sc =>
            (sc.1, .dict ((secFields sc.2).map fun k =>
              (k, noneToEmpty (pyGet (sectionItems v sc.1) k (.str ""))))))) := by
      unfold normalizeResponse
      rw [ensure_all_fields_eq]
    rw [h1, shapeOf_postprocess, ← ensure_all_fields_eq]
    exact ensure_shape v
  refine ⟨by rw [hshape]; rfl, hshape, ?_⟩
  intro sec fields hmem k hk
  rcases canonicalShape_mem hmem with ⟨sc, hsc, h1, h2⟩
  subst h1
  rcases field_str_or_passthrough v sc k hsc (h2 ▸ hk) with h | h
  · exact Or.inl h
  · exact Or.inr h.1

theorem output_mirrors_schema_witness :
    (("clinical", ["patient_allergies", "patient_diseases",
      "patient_medication_history", "patient_encounters"]) ∈ canonicalShape) ∧
    "patient_diseases" ∈ ["patient_allergies", "patient_diseases",
      "patient_medication_history", "patient_encounters"] ∧
    ((∃ s : String, getField (normalizeResponse (PyVal.str "x")) "clinical"
        "patient_diseases" = .str s) ∨
      pyIsNum (getField (normalizeResponse (PyVal.str "x")) "clinical"
        "patient_diseases") = true) :=
  ⟨by decide, by decide,
    (output_mirrors_schema (PyVal.str "x")).2.2 "clinical"
      ["patient_allergies", "patient_diseases", "patient_medication_history",
        "patient_encounters"] (by decide) "patient_diseases" (by decide)⟩

/-- C10: the average-length computation divides by `max(1, len(pages))`,
which is always positive, so there is no division by zero; an empty page
list has average 0, `text_ok` is false, and the vision path is selected when
vision is enabled. -/
theorem sniffer_empty_pages_safe :
    (∀ pages : List String, (0 : ℚ) < ((max 1 pages.length : ℕ) : ℚ)) ∧
    avg_len [] = 0 ∧ text_ok [] = false ∧ chooseMode [] true = Mode.vision := by
  refine ⟨?_, by simp [avg_len], text_ok_nil, ?_⟩
  · intro pages
    have h : (1 : ℕ) ≤ max 1 pages.length := le_max_left _ _
    have h2 : (0 : ℕ) < max 1 pages.length := lt_of_lt_of_le Nat.zero_lt_one h
    exact_mod_cast h2
  · simp [chooseMode, text_ok_nil]

end PrescriptionExtractor
